import Mathlib

/-!
Shallow embedding of the FASTBuild `ExecNode` build driver
(`src/Code/Tools/FBuild/FBuildCore/Graph/ExecNode.cpp`) and the process
exit-classification surface (`src/Code/Core/Process/Process.h`).

Machine integers are modelled as `Nat` / `Int`; strings as `String`;
the observable side effects of one `DoBuild` invocation are collected in
an explicit effects record.
-/

namespace FastBuild

/-! ## Process.h: exit classification -/

/-- Values of `Process::ExitReason` (`Process.h` lines 29-36), kept as the raw
`uint8_t` encoding used by the source. -/
def PROCESS_EXIT_UNDEFINED : Nat := 0

def PROCESS_EXIT_NORMAL : Nat := 1

def PROCESS_EXIT_ABORTED : Nat := 2

def PROCESS_EXIT_TIMEOUT : Nat := 3

def PROCESS_EXIT_TIMEOUT_INACTIVE : Nat := 4

/-- Translation of `Process::ExitReasonToString` (`Process.h` lines 38-55): the switch over
the raw exit-reason byte. -/
def ExitReasonToString (exitReason : Nat) : String :=
  if exitReason = PROCESS_EXIT_UNDEFINED then "Undefined"
  else if exitReason = PROCESS_EXIT_NORMAL then "Normal"
  else if exitReason = PROCESS_EXIT_ABORTED then "Aborted"
  else if exitReason = PROCESS_EXIT_TIMEOUT then "Process Timeout"
  else if exitReason = PROCESS_EXIT_TIMEOUT_INACTIVE then "Process Timeout Inactive"
  else "Unknown"

/-- Translation of `Process::HasAborted` (`Process.h` line 72):
`m_ExitReason == PROCESS_EXIT_ABORTED`. -/
def HasAborted (exitReason : Nat) : Bool :=
  exitReason == PROCESS_EXIT_ABORTED

/-! ## ExecNode: configuration and the one build invocation -/

/-- Values of `Node::BuildResult` returned by `ExecNode::DoBuild`:
`NODE_RESULT_FAILED` and `NODE_RESULT_OK`. -/
inductive BuildResult where
  | failed
  | ok
  deriving DecidableEq, Repr

/-- The `ExecNode` fields consulted by `DoBuild` (reflected configuration,
`ExecNode.cpp` lines 23-43). -/
structure ExecConfig where
  name : String
  execReturnCode : Int
  execAlwaysShowOutput : Bool
  execUseStdOutAsOutput : Bool
  deriving Repr

/-- The global build options consulted by `DoBuild`. -/
structure BuildOptions where
  showCommandOutput : Bool
  deriving Repr

/-- The outcome of the spawned child process as observed by `DoBuild`:
whether `Process::Spawn` succeeded, whether `HasAborted()` held after a
failed spawn, the `WaitForExit` classification and exit code, and the
captured stdout/stderr buffers. -/
structure ProcessRun where
  spawnOK : Bool
  abortedDuringSpawn : Bool
  exitReason : Nat
  exitCode : Int
  memOut : String
  memErr : String
  deriving Repr

/-- The observable effects of one `ExecNode::DoBuild` call: the returned
`BuildResult`, whether `Node::DumpOutput` was invoked on the captured
buffers, the bytes written to the node's own output path (`none` when no
write occurs; `FileStream::Open` with `WRITE_ONLY` creates/truncates, so
an empty write still leaves an empty file), whether
`RecordStampFromBuiltFile` ran, and whether `FLOG_ERROR` emitted a
diagnostic. -/
structure DoBuildEffects where
  result : BuildResult
  dumpedOutput : Bool
  fileWrite : Option String
  stampRecorded : Bool
  errorLogged : Bool
  deriving DecidableEq, Repr

/-- Translation of `ExecNode::DoBuild` (`ExecNode.cpp` lines 178-265) as a pure function
from the configuration, global options and observed process outcome to its
observable effects.  The file write models `FileStream::Open` with
`WRITE_ONLY` as create/truncate (spec section 6: the node's own path is
overwritten with raw captured stdout bytes, empty file if stdout was
empty). -/
def DoBuild (cfg : ExecConfig) (opts : BuildOptions) (run : ProcessRun) :
    DoBuildEffects :=
  if run.spawnOK = false then
    if run.abortedDuringSpawn then
      { result := .failed, dumpedOutput := false, fileWrite := none,
        stampRecorded := false, errorLogged := false }
    else
      { result := .failed, dumpedOutput := false, fileWrite := none,
        stampRecorded := false, errorLogged := true }
  else if run.exitReason = PROCESS_EXIT_ABORTED then
    { result := .failed, dumpedOutput := false, fileWrite := none,
      stampRecorded := false, errorLogged := false }
  else
    let buildFailed : Bool :=
      (run.exitReason != PROCESS_EXIT_NORMAL) || (run.exitCode != cfg.execReturnCode)
    let dumped : Bool :=
      buildFailed || cfg.execAlwaysShowOutput || opts.showCommandOutput
    if buildFailed then
      { result := .failed, dumpedOutput := dumped, fileWrite := none,
        stampRecorded := false, errorLogged := true }
    else
      { result := .ok, dumpedOutput := dumped,
        fileWrite := if cfg.execUseStdOutAsOutput then some run.memOut else none,
        stampRecorded := true, errorLogged := false }

/-! ## Static dependencies and argument templating -/

/-- A static dependency of an `ExecNode`: either a plain file node (named by
its path) or a resolved directory-listing node carrying the file names its
listing provides, in listing order (`DirectoryListNode::GetFiles`). -/
inductive DepNode where
  | file (name : String)
  | dirList (files : List String)
  deriving DecidableEq, Repr

/-- One step of the separator discipline of `ExecNode::GetInputFiles`
(`ExecNode.cpp` lines 369-390): when not first, append a single space, then
append the entry; afterwards `first` is false. -/
def entryStep (s : Bool × String) (entry : String) : Bool × String :=
  (false, (if s.1 then s.2 else s.2 ++ " ") ++ entry)

/-- The loop body of `ExecNode::GetInputFiles` over the static dependencies
from index 1 onward, threading the `first` flag and the output buffer. -/
def GetInputFilesAux (pre post : String) :
    List DepNode → Bool × String → Bool × String
  | [], s => s
  | DepNode.dirList files :: rest, s =>
      GetInputFilesAux pre post rest
        (files.foldl (fun s f => entryStep s (pre ++ f ++ post)) s)
  | DepNode.file n :: rest, s =>
      GetInputFilesAux pre post rest (entryStep s (pre ++ n ++ post))

/-- Translation of `ExecNode::GetInputFiles` (`ExecNode.cpp` lines 356-392): appends to
`fullArgs` every input dependency name wrapped in `pre`/`post`, skipping the
first static dependency (the executable) and inlining the contents of each
directory-listing dependency, separated by single spaces. -/
def GetInputFiles (staticDeps : List DepNode) (fullArgs pre post : String) :
    String :=
  (GetInputFilesAux pre post (staticDeps.drop 1) (true, fullArgs)).2

/-- Translation of `AString::EndsWith`, as a suffix test on the character data. -/
def strEndsWith (s sfx : String) : Bool :=
  List.isSuffixOf sfx.toList s.toList

/-- Whitespace splitting on character data: `cur` accumulates the current
token, whitespace ends it, empty tokens are skipped. -/
def tokenizeChars : List Char → List Char → List String
  | [], cur => if cur = [] then [] else [String.mk cur]
  | c :: rest, cur =>
      if c.isWhitespace then
        (if cur = [] then [] else [String.mk cur]) ++ tokenizeChars rest []
      else
        tokenizeChars rest (cur ++ [c])

/-- Modelled from the spec: `AString::Tokenize` is not under `src/`; spec
section 4.2 says the template is tokenized on whitespace. -/
def Tokenize (s : String) : List String :=
  tokenizeChars s.toList []

/-- The per-token substitution of `ExecNode::GetFullArgs`
(`ExecNode.cpp` lines 306-351): `%1` markers expand to the input list with
the surrounding prefix/quotes, `%2` markers to the node's own name. -/
def GetFullArgsToken (staticDeps : List DepNode) (name fullArgs token : String) :
    String :=
  if strEndsWith token "%1" then
    let pre := if token.length > 2 then token.dropRight 2 else ""
    GetInputFiles staticDeps fullArgs pre ""
  else if strEndsWith token "\"%1\"" then
    let pre := token.dropRight 3
    GetInputFiles staticDeps fullArgs pre "\""
  else if strEndsWith token "%2" then
    (if token.length > 2 then fullArgs ++ token.dropRight 2 else fullArgs) ++ name
  else if strEndsWith token "\"%2\"" then
    fullArgs ++ token.dropRight 3 ++ name ++ "\""
  else
    fullArgs ++ token

/-- Translation of `ExecNode::GetFullArgs` (`ExecNode.cpp` lines 298-352): tokenize the
argument template, substitute each token, and append a space after every
token. -/
def GetFullArgs (staticDeps : List DepNode) (name args : String) : String :=
  (Tokenize args).foldl
    (fun fullArgs token => GetFullArgsToken staticDeps name fullArgs token ++ " ")
    ""

/-- The list of input entries the `%1` expansion covers, for one
dependency. -/
def expandDep : DepNode → List String
  | DepNode.file n => [n]
  | DepNode.dirList files => files

/-- All input entries of the `%1` expansion, in static-dependency order
(directory-listing contents inlined in listing order). -/
def expandInputs (deps : List DepNode) : List String :=
  deps.flatMap expandDep

/-! ## Dynamic dependencies (`ExecNode::DoDynamicDependencies`) -/

/-- The node graph as seen by `DoDynamicDependencies`: the nodes that exist,
as `(name, IsAFile())` entries.  `NodeGraph::FindNode` / `CreateNode` /
`Node::IsAFile` are not under `src/`; modelled from the spec
(section 4.3: find or create a file-reference node for the path; a
pre-existing non-file node at the path is a configuration error). -/
abbrev NodeGraphModel := List (String × Bool)

/-- Translation of `NodeGraph::FindNode`: look a node up by name, returning its
`IsAFile()` status when present. -/
def FindNode (g : NodeGraphModel) (name : String) : Option Bool :=
  (List.find? (fun e => e.1 == name) g).map (fun e => e.2)

/-- The mutable state threaded through `DoDynamicDependencies`: the node
graph and the node's `m_DynamicDependencies` (as dependency names). -/
structure ExecDynState where
  graph : NodeGraphModel
  dynamicDependencies : List String

/-- The per-file body of the inner loop of `DoDynamicDependencies`
(`ExecNode.cpp` lines 143-158): find the node, create a `FileNode` when
absent, fail when a non-file node occupies the path, then add the
dependency. -/
def addDynamicDep (st : ExecDynState) (fname : String) : Option ExecDynState :=
  match FindNode st.graph fname with
  | none =>
      some { graph := st.graph ++ [(fname, true)],
             dynamicDependencies := st.dynamicDependencies ++ [fname] }
  | some true =>
      some { st with dynamicDependencies := st.dynamicDependencies ++ [fname] }
  | some false => none

/-- The inner loop of `DoDynamicDependencies` over one directory listing's
files, in listing order. -/
def addDynamicDeps (files : List String) (st : ExecDynState) :
    Option ExecDynState :=
  match files with
  | [] => some st
  | f :: rest => (addDynamicDep st f).bind (addDynamicDeps rest)

/-- The outer loop of `DoDynamicDependencies` over the directory-listing
static dependencies.  A non-listing node in the iterated range violates the
source's `ASSERT( n->GetType() == Node::DIRECTORY_LIST_NODE )`; modelled as
failure. -/
def doDynamicLoop (deps : List DepNode) (st : ExecDynState) :
    Option ExecDynState :=
  match deps with
  | [] => some st
  | DepNode.dirList files :: rest =>
      (addDynamicDeps files st).bind (doDynamicLoop rest)
  | DepNode.file _ :: _ => none

/-- The `ExecNode` state relevant to dependency resolution: the static
dependencies (executable first, then explicit input files, then
directory-listing nodes), the recorded `m_NumExecInputFiles`, the size of
`m_ExecInputPath`, and the current dynamic dependency list. -/
structure ExecNodeState where
  staticDeps : List DepNode
  numExecInputFiles : Nat
  numExecInputPaths : Nat
  dynamicDependencies : List String
  deriving DecidableEq, Repr

/-- The sub-range of static dependencies iterated by
`DoDynamicDependencies`: indices `1 + m_NumExecInputFiles` up to
`1 + m_NumExecInputFiles + m_ExecInputPath.GetSize()`. -/
def listingSlice (node : ExecNodeState) : List DepNode :=
  (node.staticDeps.drop (1 + node.numExecInputFiles)).take node.numExecInputPaths

/-- Translation of `ExecNode::DoDynamicDependencies` (`ExecNode.cpp` lines 125-162): clear
the dynamic dependencies from previous passes, then repopulate from the
directory-listing static dependencies; returns the updated node and graph,
or `none` on a configuration error. -/
def DoDynamicDependencies (node : ExecNodeState) (graph : NodeGraphModel) :
    Option (ExecNodeState × NodeGraphModel) :=
  match doDynamicLoop (listingSlice node)
          { graph := graph, dynamicDependencies := [] } with
  | none => none
  | some st =>
      some ({ node with dynamicDependencies := st.dynamicDependencies }, st.graph)

/-! ## Static initialization (`ExecNode::Initialize`) -/

/-- The resolution outcomes `Initialize` consumes from its collaborators
(`InitializePreBuildDependencies`, `Function::GetFileNode`,
`Function::GetFileNodes`, `Function::GetDirectoryListNodeList`, none of
which are under `src/`).  Modelled from the spec, section 4.3:
`execExecutableResolved` is the list of file nodes the `.ExecExecutable`
reference resolves to; the other resolutions either fail or produce their
dependency lists. -/
structure InitInputs where
  preBuildOK : Bool
  execExecutableResolved : List DepNode
  execInputResolved : Option (List DepNode)
  execInputPathsResolved : Option (List DepNode)

/-- Modelled from the spec: `Function::GetFileNode` is not under `src/`;
spec section 4.3 says initialization resolves the executable reference to
exactly one file node and fails if not exactly one (the source records this
as `ASSERT( executable.GetSize() == 1 )` after a successful call). -/
def GetFileNode (resolved : List DepNode) : Option (List DepNode) :=
  if resolved.length = 1 then some resolved else none

/-- Translation of `ExecNode::Initialize` (`ExecNode.cpp` lines 63-114): resolve pre-build
dependencies, the executable, the explicit input files and the
directory-listing nodes, then store the static dependencies in that order;
`none` models `return false` (no process is spawned by initialization). -/
def InitializeExec (inp : InitInputs) : Option ExecNodeState :=
  if inp.preBuildOK = false then none
  else
    match GetFileNode inp.execExecutableResolved with
    | none => none
    | some executable =>
        match inp.execInputResolved with
        | none => none
        | some execInputFiles =>
            match inp.execInputPathsResolved with
            | none => none
            | some execInputPaths =>
                some { staticDeps := executable ++ execInputFiles ++ execInputPaths,
                       numExecInputFiles := execInputFiles.length,
                       numExecInputPaths := execInputPaths.length,
                       dynamicDependencies := [] }

/-! ## Join helpers and concrete fixtures -/

/-- The tail of a space-separated join: one space before every entry. -/
def spaceSepTail : List String → String
  | [] => ""
  | e :: rest => " " ++ e ++ spaceSepTail rest

/-- Entries joined by exactly one space between consecutive entries (empty
for the empty list). -/
def spaceSeparated : List String → String
  | [] => ""
  | e :: rest => e ++ spaceSepTail rest

/-- A baseline node configuration: expected exit code 0, no flags. -/
def cfgBase : ExecConfig :=
  { name := "out.o", execReturnCode := 0,
    execAlwaysShowOutput := false, execUseStdOutAsOutput := false }

/-- A baseline configuration with `use-stdout-as-output` set. -/
def cfgStdOut : ExecConfig :=
  { name := "artifact.txt", execReturnCode := 0,
    execAlwaysShowOutput := false, execUseStdOutAsOutput := true }

/-- Baseline global options: show-all-command-output off. -/
def optsBase : BuildOptions := { showCommandOutput := false }

/-- A run whose process exited normally with code 0. -/
def runNormalOk : ProcessRun :=
  { spawnOK := true, abortedDuringSpawn := false,
    exitReason := PROCESS_EXIT_NORMAL, exitCode := 0,
    memOut := "hello", memErr := "" }

/-- A run whose process exited normally with code 0 and empty stdout. -/
def runEmptyOut : ProcessRun :=
  { spawnOK := true, abortedDuringSpawn := false,
    exitReason := PROCESS_EXIT_NORMAL, exitCode := 0,
    memOut := "", memErr := "" }

/-- A run whose process was aborted. -/
def runAbortedRun : ProcessRun :=
  { spawnOK := true, abortedDuringSpawn := false,
    exitReason := PROCESS_EXIT_ABORTED, exitCode := 0,
    memOut := "out", memErr := "err" }

/-- A run whose process exited normally with code 1. -/
def runExitOne : ProcessRun :=
  { spawnOK := true, abortedDuringSpawn := false,
    exitReason := PROCESS_EXIT_NORMAL, exitCode := 1,
    memOut := "out", memErr := "err" }

/-- A node with one executable, one explicit input and one directory
listing, carrying a stale dynamic dependency from a prior pass. -/
def node0 : ExecNodeState :=
  { staticDeps := [DepNode.file "exe", DepNode.file "in.c",
                   DepNode.dirList ["x.c", "y.c"]],
    numExecInputFiles := 1, numExecInputPaths := 1,
    dynamicDependencies := ["stale.c"] }

/-- A node graph holding one unrelated non-file node. -/
def graph0 : NodeGraphModel := [("other", false)]

/-- The state of `node0` after one dynamic-dependency pass. -/
def node0After : ExecNodeState :=
  { staticDeps := [DepNode.file "exe", DepNode.file "in.c",
                   DepNode.dirList ["x.c", "y.c"]],
    numExecInputFiles := 1, numExecInputPaths := 1,
    dynamicDependencies := ["x.c", "y.c"] }

/-- The state of `graph0` after one dynamic-dependency pass over `node0`. -/
def graph0After : NodeGraphModel :=
  [("other", false), ("x.c", true), ("y.c", true)]

/-- Initialization inputs whose executable reference resolves to two
nodes. -/
def inpTwoExes : InitInputs :=
  { preBuildOK := true,
    execExecutableResolved := [DepNode.file "a.exe", DepNode.file "b.exe"],
    execInputResolved := some [], execInputPathsResolved := some [] }

/-! ## Helper lemmas -/

theorem getInputFilesAux_eq_foldl (pre post : String) (deps : List DepNode)
    (s : Bool × String) :
    GetInputFilesAux pre post deps s =
      ((expandInputs deps).map (fun n => pre ++ n ++ post)).foldl entryStep s := by
  induction deps generalizing s with
  | nil => rfl
  | cons d rest ih =>
    cases d with
    | file n =>
      rw [GetInputFilesAux, ih]
      simp [expandInputs, List.flatMap_cons, expandDep]
    | dirList files =>
      rw [GetInputFilesAux, ih]
      simp only [expandInputs, List.flatMap_cons, expandDep, List.map_append,
        List.foldl_append, List.foldl_map]

theorem foldl_entryStep_false (entries : List String) (acc : String) :
    entries.foldl entryStep (false, acc) = (false, acc ++ spaceSepTail entries) := by
  induction entries generalizing acc with
  | nil => simp [spaceSepTail, String.append_empty]
  | cons e rest ih =>
    rw [List.foldl_cons, entryStep, ih]
    simp [spaceSepTail, String.append_assoc]

theorem foldl_entryStep_true_snd (entries : List String) (acc : String) :
    (entries.foldl entryStep (true, acc)).2 = acc ++ spaceSeparated entries := by
  cases entries with
  | nil => simp [spaceSeparated, String.append_empty]
  | cons e rest =>
    rw [List.foldl_cons, entryStep, foldl_entryStep_false]
    simp [spaceSeparated, String.append_assoc]

theorem getInputFiles_spec (staticDeps : List DepNode)
    (fullArgs pre post : String) :
    GetInputFiles staticDeps fullArgs pre post =
      fullArgs ++
        spaceSeparated ((expandInputs (staticDeps.drop 1)).map
          (fun n => pre ++ n ++ post)) := by
  rw [GetInputFiles, getInputFilesAux_eq_foldl, foldl_entryStep_true_snd]

/-! ## Claim theorems -/

/-- C9: `Process::ExitReasonToString` maps the five classification values
{Undefined, Normal, Aborted, Timeout, TimeoutInactive} to exactly the
strings "Undefined", "Normal", "Aborted", "Process Timeout" and
"Process Timeout Inactive". -/
theorem C9_exit_reason_strings :
    ExitReasonToString PROCESS_EXIT_UNDEFINED = "Undefined" ∧
    ExitReasonToString PROCESS_EXIT_NORMAL = "Normal" ∧
    ExitReasonToString PROCESS_EXIT_ABORTED = "Aborted" ∧
    ExitReasonToString PROCESS_EXIT_TIMEOUT = "Process Timeout" ∧
    ExitReasonToString PROCESS_EXIT_TIMEOUT_INACTIVE = "Process Timeout Inactive" :=
  ⟨rfl, rfl, rfl, rfl, rfl⟩

/-- C1: provided the spawn succeeded, `ExecNode::DoBuild` reports success
(`NODE_RESULT_OK`) iff the process exited normally and its exit code equals
the node's configured expected exit code; every other combination (non-normal
exit reason, or normal exit with a different code) is reported as failure. -/
theorem C1_success_iff_normal_expected (cfg : ExecConfig) (opts : BuildOptions)
    (run : ProcessRun) (h : run.spawnOK = true) :
    (DoBuild cfg opts run).result = BuildResult.ok ↔
      (run.exitReason = PROCESS_EXIT_NORMAL ∧
       run.exitCode = cfg.execReturnCode) := by
  rw [DoBuild, h]
  by_cases hab : run.exitReason = PROCESS_EXIT_ABORTED
  · rw [if_neg (show ¬(true = false) by simp), if_pos hab]
    constructor
    · intro hcontra
      exact absurd hcontra (by decide)
    · intro hok
      rw [hok.1] at hab
      exact absurd hab (by decide)
  · simp only [Bool.true_eq_false, if_false, hab]
    by_cases hfail :
        ((run.exitReason != PROCESS_EXIT_NORMAL) ||
         (run.exitCode != cfg.execReturnCode)) = true
    · simp only [hfail, if_true]
      constructor
      · intro hcontra
        exact absurd hcontra (by simp)
      · intro hok
        rw [Bool.or_eq_true, bne_iff_ne, bne_iff_ne] at hfail
        rcases hfail with hf | hf
        · exact absurd hok.1 hf
        · exact absurd hok.2 hf
    · simp only [hfail, if_false]
      rw [Bool.or_eq_true, bne_iff_ne, bne_iff_ne] at hfail
      push_neg at hfail
      exact iff_of_true rfl hfail

/-- C1 witness: a spawn-succeeded run exiting normally with the expected
code 0 is reported as success. -/
theorem C1_witness :
    (DoBuild cfgBase optsBase runNormalOk).result = BuildResult.ok :=
  (C1_success_iff_normal_expected cfgBase optsBase runNormalOk rfl).mpr
    ⟨rfl, rfl⟩

/-- C2: when the exit reason is Aborted, `ExecNode::DoBuild` fails
immediately with no further output handling: no dump of captured
stdout/stderr, no stdout-as-artifact file write, no build-stamp update (and
no error diagnostic). -/
theorem C2_aborted_fails_immediately (cfg : ExecConfig) (opts : BuildOptions)
    (run : ProcessRun) (h : run.spawnOK = true)
    (hab : run.exitReason = PROCESS_EXIT_ABORTED) :
    DoBuild cfg opts run =
      { result := BuildResult.failed, dumpedOutput := false, fileWrite := none,
        stampRecorded := false, errorLogged := false } := by
  rw [DoBuild, h, hab]
  simp

/-- C2 witness: the aborted fixture run produces the failed, effect-free
outcome. -/
theorem C2_witness :
    DoBuild cfgBase optsBase runAbortedRun =
      { result := BuildResult.failed, dumpedOutput := false, fileWrite := none,
        stampRecorded := false, errorLogged := false } :=
  C2_aborted_fails_immediately cfgBase optsBase runAbortedRun rfl rfl

/-- C5 counterexample: the claim "output is dumped iff the build was
classified as failed, or always-show-output, or global show-all" is false as
stated: an aborted run is reported failed, yet `DoBuild` returns before the
dump, so nothing is dumped. -/
theorem C5_counterexample :
    ¬ ((DoBuild cfgBase optsBase runAbortedRun).dumpedOutput = true ↔
        ((DoBuild cfgBase optsBase runAbortedRun).result = BuildResult.failed ∨
         cfgBase.execAlwaysShowOutput = true ∨
         optsBase.showCommandOutput = true)) := by
  decide

/-- C5 amended: provided the spawn succeeded and the exit reason is not
Aborted, the captured stdout/stderr are dumped iff the build was classified
as failed, or the node's always-show-output flag is set, or the global
show-all-command-output option is set. -/
theorem C5_amended_dump_condition (cfg : ExecConfig) (opts : BuildOptions)
    (run : ProcessRun) (h : run.spawnOK = true)
    (hab : run.exitReason ≠ PROCESS_EXIT_ABORTED) :
    (DoBuild cfg opts run).dumpedOutput = true ↔
      ((DoBuild cfg opts run).result = BuildResult.failed ∨
       cfg.execAlwaysShowOutput = true ∨ opts.showCommandOutput = true) := by
  rw [DoBuild, h, if_neg (show ¬(true = false) by simp), if_neg hab]
  by_cases hfail :
      ((run.exitReason != PROCESS_EXIT_NORMAL) ||
       (run.exitCode != cfg.execReturnCode)) = true
  · simp [hfail]
  · simp only [Bool.not_eq_true] at hfail
    simp [hfail]

/-- C5 witness: a run exiting normally with unexpected code 1 has its output
dumped, as the amended claim requires. -/
theorem C5_witness :
    (DoBuild cfgBase optsBase runExitOne).dumpedOutput = true ↔
      ((DoBuild cfgBase optsBase runExitOne).result = BuildResult.failed ∨
       cfgBase.execAlwaysShowOutput = true ∨
       optsBase.showCommandOutput = true) :=
  C5_amended_dump_condition cfgBase optsBase runExitOne rfl (by decide)

/-- C6: on a successful build (normal exit with the expected code) with the
use-stdout-as-output flag set, `DoBuild` writes the captured stdout buffer
verbatim to the node's output path (the file is created/truncated even when
the buffer is empty, per the `FileStream` open-for-write model). -/
theorem C6_stdout_as_artifact (cfg : ExecConfig) (opts : BuildOptions)
    (run : ProcessRun) (h : run.spawnOK = true)
    (hn : run.exitReason = PROCESS_EXIT_NORMAL)
    (hc : run.exitCode = cfg.execReturnCode)
    (hu : cfg.execUseStdOutAsOutput = true) :
    (DoBuild cfg opts run).result = BuildResult.ok ∧
    (DoBuild cfg opts run).fileWrite = some run.memOut := by
  have hab : run.exitReason ≠ PROCESS_EXIT_ABORTED := by rw [hn]; decide
  rw [DoBuild, h, if_neg (show ¬(true = false) by simp), if_neg hab]
  have hfail : ((run.exitReason != PROCESS_EXIT_NORMAL) ||
      (run.exitCode != cfg.execReturnCode)) = false := by
    simp [hn, hc]
  simp [hfail, hu]

/-- C6 witness: a successful run with empty captured stdout still writes an
empty artifact. -/
theorem C6_witness :
    (DoBuild cfgStdOut optsBase runEmptyOut).result = BuildResult.ok ∧
    (DoBuild cfgStdOut optsBase runEmptyOut).fileWrite = some "" :=
  C6_stdout_as_artifact cfgStdOut optsBase runEmptyOut rfl rfl rfl rfl

/-- C7 counterexample: the claim that cancellation reaches the caller of
`DoBuild` as a terminal state distinct from a tool failure is false: an
aborted run and a run exiting normally with the wrong code both return the
same `NODE_RESULT_FAILED`. -/
theorem C7_counterexample :
    (DoBuild cfgBase optsBase runAbortedRun).result =
      (DoBuild cfgBase optsBase runExitOne).result ∧
    (DoBuild cfgBase optsBase runAbortedRun).result = BuildResult.failed := by
  decide

/-- C7 amended: cancellation is a distinct terminal state at the process
level — `HasAborted` holds exactly when the exit reason is Aborted — and
within `DoBuild` the aborted path fails without emitting an error
diagnostic, while a non-aborted failure emits one; the `BuildResult`
returned to the caller, however, is the same `NODE_RESULT_FAILED` in both
cases. -/
theorem C7_amended_abort_distinction (cfg : ExecConfig) (opts : BuildOptions)
    (run : ProcessRun) (h : run.spawnOK = true) :
    (HasAborted run.exitReason = true ↔
      run.exitReason = PROCESS_EXIT_ABORTED) ∧
    (run.exitReason = PROCESS_EXIT_ABORTED →
      (DoBuild cfg opts run).result = BuildResult.failed ∧
      (DoBuild cfg opts run).errorLogged = false) ∧
    (run.exitReason ≠ PROCESS_EXIT_ABORTED →
      (DoBuild cfg opts run).result = BuildResult.failed →
      (DoBuild cfg opts run).errorLogged = true) := by
  refine ⟨by simp [HasAborted], ?_, ?_⟩
  · intro hab
    rw [DoBuild, h, if_neg (show ¬(true = false) by simp), if_pos hab]
    exact ⟨rfl, rfl⟩
  · intro hab hres
    rw [DoBuild, h, if_neg (show ¬(true = false) by simp), if_neg hab] at hres ⊢
    by_cases hfail :
        ((run.exitReason != PROCESS_EXIT_NORMAL) ||
         (run.exitCode != cfg.execReturnCode)) = true
    · simp [hfail]
    · simp only [Bool.not_eq_true] at hfail
      simp [hfail] at hres

/-- C7 witness: the amended distinction instantiated at the aborted fixture
run. -/
theorem C7_witness :
    (HasAborted runAbortedRun.exitReason = true ↔
      runAbortedRun.exitReason = PROCESS_EXIT_ABORTED) ∧
    (runAbortedRun.exitReason = PROCESS_EXIT_ABORTED →
      (DoBuild cfgBase optsBase runAbortedRun).result = BuildResult.failed ∧
      (DoBuild cfgBase optsBase runAbortedRun).errorLogged = false) ∧
    (runAbortedRun.exitReason ≠ PROCESS_EXIT_ABORTED →
      (DoBuild cfgBase optsBase runAbortedRun).result = BuildResult.failed →
      (DoBuild cfgBase optsBase runAbortedRun).errorLogged = true) :=
  C7_amended_abort_distinction cfgBase optsBase runAbortedRun rfl

/-- C3: the template "-o %2 %1" with output name "out.o" and inputs
[a.c, b.c] yields "-o out.o a.c b.c " (with the trailing space the source
appends after every token); and for the quoted marker token, every expanded
input entry is individually wrapped in the surrounding quotes, entries
joined by exactly one space with no duplicated separator. -/
theorem C3_arg_templating :
    GetFullArgs [DepNode.file "exe", DepNode.file "a.c", DepNode.file "b.c"]
        "out.o" "-o %2 %1" = "-o out.o a.c b.c " ∧
    ∀ (exe : DepNode) (inputs : List DepNode) (name : String),
      GetFullArgs (exe :: inputs) name "\"%1\"" =
        spaceSeparated ((expandInputs inputs).map
          (fun n => "\"" ++ n ++ "\"")) ++ " " := by
  constructor
  · decide
  · intro exe inputs name
    have ht : Tokenize "\"%1\"" = ["\"%1\""] := rfl
    rw [GetFullArgs, ht, List.foldl_cons, List.foldl_nil]
    have h1 : GetFullArgsToken (exe :: inputs) name "" "\"%1\"" =
        GetInputFiles (exe :: inputs) "" "\"" "\"" := rfl
    rw [h1, getInputFiles_spec]
    simp [String.empty_append]

/-- C10: the %1 input expansion iterates the static dependencies starting at
index 1, so the executable (the first static dependency) contributes no
entry; the expansion covers the explicit input files and the inlined
contents of each directory-listing dependency, each entry wrapped in
`pre`/`post`, in static-dependency order (listing contents in listing
order). -/
theorem C10_inputs_skip_executable (exe : DepNode) (rest : List DepNode)
    (fullArgs pre post : String) :
    GetInputFiles (exe :: rest) fullArgs pre post =
      fullArgs ++ spaceSeparated ((expandInputs rest).map
        (fun n => pre ++ n ++ post)) := by
  rw [getInputFiles_spec]
  simp

theorem findNode_append_of_some (g : NodeGraphModel) (x : String × Bool)
    (n : String) (b : Bool) (h : FindNode g n = some b) :
    FindNode (g ++ [x]) n = some b := by
  rw [FindNode] at h ⊢
  rw [List.find?_append]
  cases hf : List.find? (fun e => e.1 == n) g with
  | none => rw [hf] at h; simp at h
  | some e =>
      rw [hf] at h
      exact h

theorem findNode_append_self (g : NodeGraphModel) (n : String) (b : Bool)
    (h : FindNode g n = none) :
    FindNode (g ++ [(n, b)]) n = some b := by
  rw [FindNode] at h ⊢
  rw [List.find?_append]
  cases hf : List.find? (fun e => e.1 == n) g with
  | some e => rw [hf] at h; simp at h
  | none =>
      rw [List.find?_cons_of_pos _ (by simp)]
      rfl

theorem addDynamicDep_spec (st st' : ExecDynState) (f : String)
    (h : addDynamicDep st f = some st') :
    st'.dynamicDependencies = st.dynamicDependencies ++ [f] ∧
    (∀ n b, FindNode st.graph n = some b → FindNode st'.graph n = some b) ∧
    FindNode st'.graph f = some true := by
  rw [addDynamicDep] at h
  cases hf : FindNode st.graph f with
  | none =>
      rw [hf] at h
      simp only [Option.some.injEq] at h
      subst h
      refine ⟨rfl, ?_, ?_⟩
      · intro n b hn
        exact findNode_append_of_some _ _ _ _ hn
      · exact findNode_append_self _ _ _ hf
  | some isFile =>
      rw [hf] at h
      cases isFile with
      | false => simp at h
      | true =>
          simp only [Option.some.injEq] at h
          subst h
          exact ⟨rfl, fun n b hn => hn, hf⟩

theorem addDynamicDeps_spec (files : List String) (st st' : ExecDynState)
    (h : addDynamicDeps files st = some st') :
    st'.dynamicDependencies = st.dynamicDependencies ++ files ∧
    (∀ n b, FindNode st.graph n = some b → FindNode st'.graph n = some b) ∧
    (∀ f ∈ files, FindNode st'.graph f = some true) := by
  induction files generalizing st with
  | nil =>
      rw [addDynamicDeps] at h
      simp only [Option.some.injEq] at h
      subst h
      exact ⟨(List.append_nil _).symm, fun n b hn => hn, by simp⟩
  | cons f rest ih =>
      rw [addDynamicDeps] at h
      cases ha : addDynamicDep st f with
      | none => rw [ha] at h; simp at h
      | some st1 =>
          rw [ha] at h
          simp only [Option.some_bind] at h
          obtain ⟨hd1, hm1, hf1⟩ := addDynamicDep_spec st st1 f ha
          obtain ⟨hd2, hm2, hf2⟩ := ih st1 h
          refine ⟨?_, fun n b hn => hm2 n b (hm1 n b hn), ?_⟩
          · rw [hd2, hd1, List.append_assoc]
            rfl
          · intro g hg
            cases hg with
            | head => exact hm2 f true hf1
            | tail _ hg => exact hf2 g hg

theorem addDynamicDeps_stable (files : List String) (st : ExecDynState)
    (h : ∀ f ∈ files, FindNode st.graph f = some true) :
    addDynamicDeps files st =
      some { graph := st.graph,
             dynamicDependencies := st.dynamicDependencies ++ files } := by
  induction files generalizing st with
  | nil =>
      rw [addDynamicDeps]
      simp
  | cons f rest ih =>
      have hstep := ih { graph := st.graph,
                         dynamicDependencies := st.dynamicDependencies ++ [f] }
        (fun g hg => h g (List.mem_cons_of_mem f hg))
      rw [addDynamicDeps, addDynamicDep, h f (List.mem_cons_self f rest)]
      show addDynamicDeps rest
          { graph := st.graph,
            dynamicDependencies := st.dynamicDependencies ++ [f] } =
        some { graph := st.graph,
               dynamicDependencies := st.dynamicDependencies ++ f :: rest }
      rw [hstep]
      simp

theorem doDynamicLoop_spec (deps : List DepNode) (st st' : ExecDynState)
    (h : doDynamicLoop deps st = some st') :
    st'.dynamicDependencies = st.dynamicDependencies ++ expandInputs deps ∧
    (∀ n b, FindNode st.graph n = some b → FindNode st'.graph n = some b) ∧
    (∀ f ∈ expandInputs deps, FindNode st'.graph f = some true) ∧
    (∀ d ∈ deps, ∃ files, d = DepNode.dirList files) := by
  induction deps generalizing st with
  | nil =>
      rw [doDynamicLoop] at h
      simp only [Option.some.injEq] at h
      subst h
      exact ⟨by simp [expandInputs], fun n b hn => hn,
        by simp [expandInputs], by simp⟩
  | cons d rest ih =>
      cases d with
      | file nm => rw [doDynamicLoop] at h; simp at h
      | dirList files =>
          rw [doDynamicLoop] at h
          cases ha : addDynamicDeps files st with
          | none => rw [ha] at h; simp at h
          | some st1 =>
              rw [ha] at h
              simp only [Option.some_bind] at h
              obtain ⟨hd1, hm1, hf1⟩ := addDynamicDeps_spec files st st1 ha
              obtain ⟨hd2, hm2, hf2, hdl⟩ := ih st1 h
              refine ⟨?_, fun n b hn => hm2 n b (hm1 n b hn), ?_, ?_⟩
              · rw [hd2, hd1]
                simp [expandInputs, List.flatMap_cons, expandDep,
                  List.append_assoc]
              · intro g hg
                rw [expandInputs, List.flatMap_cons] at hg
                rcases List.mem_append.mp hg with hg | hg
                · exact hm2 g true (hf1 g hg)
                · exact hf2 g hg
              · intro d hd
                cases hd with
                | head => exact ⟨files, rfl⟩
                | tail _ hd => exact hdl d hd

theorem doDynamicLoop_stable (deps : List DepNode) (st : ExecDynState)
    (hdl : ∀ d ∈ deps, ∃ files, d = DepNode.dirList files)
    (h : ∀ f ∈ expandInputs deps, FindNode st.graph f = some true) :
    doDynamicLoop deps st =
      some { graph := st.graph,
             dynamicDependencies :=
               st.dynamicDependencies ++ expandInputs deps } := by
  induction deps generalizing st with
  | nil =>
      rw [doDynamicLoop]
      simp [expandInputs]
  | cons d rest ih =>
      obtain ⟨files, rfl⟩ := hdl d (List.mem_cons_self d rest)
      have hfs : ∀ f ∈ files, FindNode st.graph f = some true := by
        intro f hf
        refine h f ?_
        rw [expandInputs, List.flatMap_cons]
        exact List.mem_append_left _ hf
      have hstep := ih
        { graph := st.graph,
          dynamicDependencies := st.dynamicDependencies ++ files }
        (fun d hd => hdl d (List.mem_cons_of_mem _ hd))
        (by
          intro f hf
          refine h f ?_
          rw [expandInputs, List.flatMap_cons]
          exact List.mem_append_right _ hf)
      rw [doDynamicLoop, addDynamicDeps_stable files st hfs]
      show doDynamicLoop rest
          { graph := st.graph,
            dynamicDependencies := st.dynamicDependencies ++ files } =
        some { graph := st.graph,
               dynamicDependencies :=
                 st.dynamicDependencies ++ expandInputs (DepNode.dirList files :: rest) }
      rw [hstep]
      simp [expandInputs, List.flatMap_cons, expandDep, List.append_assoc]

/-- C4: `ExecNode::DoDynamicDependencies` clears all previously recorded
dynamic dependencies before repopulating: on success the resulting list is
exactly the concatenation of the directory listings' file lists, in listing
order then file order, independent of whatever dynamic dependencies the node
carried before; and the pass is idempotent: running it again on the same
directory-listing contents yields the identical list (and graph), so no
entry is duplicated and none survives from a prior pass. -/
theorem C4_dynamic_deps_idempotent (node : ExecNodeState)
    (graph : NodeGraphModel) (node' : ExecNodeState) (graph' : NodeGraphModel)
    (h : DoDynamicDependencies node graph = some (node', graph')) :
    node'.dynamicDependencies = expandInputs (listingSlice node) ∧
    DoDynamicDependencies node' graph' = some (node', graph') := by
  rw [DoDynamicDependencies] at h
  cases hl : doDynamicLoop (listingSlice node)
      { graph := graph, dynamicDependencies := [] } with
  | none => rw [hl] at h; simp at h
  | some st =>
      rw [hl] at h
      simp only [Option.some.injEq, Prod.mk.injEq] at h
      obtain ⟨hnode, hgraph⟩ := h
      obtain ⟨hd, hm, hf, hdl⟩ := doDynamicLoop_spec _ _ _ hl
      subst hnode
      subst hgraph
      have hdyn : st.dynamicDependencies = expandInputs (listingSlice node) := by
        rw [hd]
        simp
      refine ⟨hdyn, ?_⟩
      rw [DoDynamicDependencies]
      have hslice : listingSlice
          { node with dynamicDependencies := st.dynamicDependencies } =
          listingSlice node := rfl
      rw [hslice, doDynamicLoop_stable (listingSlice node)
        { graph := st.graph, dynamicDependencies := [] } hdl hf]
      rw [hdyn]
      rfl

/-- C4 witness: one pass over the fixture node discards its stale entry and
records exactly the listing contents; a second pass reproduces the same node
and graph. -/
theorem C4_witness :
    node0After.dynamicDependencies = expandInputs (listingSlice node0) ∧
    DoDynamicDependencies node0After graph0After = some (node0After, graph0After) :=
  C4_dynamic_deps_idempotent node0 graph0 node0After graph0After (by decide)

/-- C8: during the static pass, initialization requires the executable
reference to resolve to exactly one file node: when it does not, `Initialize`
fails (returns false, modelled as `none`) — and initialization spawns no
process; on success, the single resolved node is stored first among the
static dependencies. -/
theorem C8_executable_resolves_to_one (inp : InitInputs) :
    (inp.execExecutableResolved.length ≠ 1 → InitializeExec inp = none) ∧
    (∀ st, InitializeExec inp = some st →
      inp.execExecutableResolved.length = 1 ∧
      st.staticDeps.take 1 = inp.execExecutableResolved) := by
  constructor
  · intro hlen
    by_cases hpb : inp.preBuildOK = false
    · rw [InitializeExec, if_pos hpb]
    · rw [InitializeExec, if_neg hpb, GetFileNode, if_neg hlen]
  · intro st hst
    by_cases hpb : inp.preBuildOK = false
    · rw [InitializeExec, if_pos hpb] at hst
      exact absurd hst (by simp)
    · rw [InitializeExec, if_neg hpb, GetFileNode] at hst
      by_cases hlen : inp.execExecutableResolved.length = 1
      · rw [if_pos hlen] at hst
        refine ⟨hlen, ?_⟩
        cases hin : inp.execInputResolved with
        | none => rw [hin] at hst; simp at hst
        | some execInputFiles =>
            rw [hin] at hst
            cases hpath : inp.execInputPathsResolved with
            | none => rw [hpath] at hst; simp at hst
            | some execInputPaths =>
                rw [hpath] at hst
                simp only [Option.some.injEq] at hst
                subst hst
                obtain ⟨a, ha⟩ := List.length_eq_one.mp hlen
                rw [ha]
                simp
      · rw [if_neg hlen] at hst
        simp at hst

/-- C8 witness: an executable reference resolving to two nodes makes
initialization fail. -/
theorem C8_witness : InitializeExec inpTwoExes = none :=
  (C8_executable_resolves_to_one inpTwoExes).1 (by decide)

end FastBuild
